import Mathlib

/-!
Verification of the `raytracer-rust` repository against its natural-language
specification.  The source is shallowly embedded: `f64` values are modelled as
exact rationals (`ℚ`), vectors as triples of rationals, and fallible or
stateful code as explicit state passing.  Randomness (the `Rand` argument
threaded through the source) is modelled by passing the sampled values as
explicit parameters, and the dynamic `Hittable`/`Material` trait objects are
modelled by records of functions, exactly as the Rust code is generic over
them.
-/

namespace Raytracer

/-! ### `src/math.rs` -/

/-- `FLOAT_THRESHOLD` from `src/math.rs`. -/
def FLOAT_THRESHOLD : ℚ := 1 / 10000

/-- `math::f_eq`: equality of two floats to within `FLOAT_THRESHOLD`
(`(lhs - rhs).abs() <= FLOAT_THRESHOLD`). -/
def f_eq (lhs rhs : ℚ) : Bool := |lhs - rhs| ≤ FLOAT_THRESHOLD

/-- `math::f_leq`: `lhs < rhs || f_eq(lhs, rhs)`. -/
def f_leq (lhs rhs : ℚ) : Bool := lhs < rhs || f_eq lhs rhs

/-- `math::f_geq`: `lhs > rhs || f_eq(lhs, rhs)`. -/
def f_geq (lhs rhs : ℚ) : Bool := lhs > rhs || f_eq lhs rhs

/-- `math::f_clamp`: `f64::max(min, f64::min(max, val))`. -/
def f_clamp (val mn mx : ℚ) : ℚ := max mn (min mx val)

/-- Rational model of `f64::sqrt`.  It agrees with the ideal real square root
on perfect squares (the only points at which any theorem below depends on the
value of a square root); elsewhere the square root only flows into data whose
exact value no theorem inspects. -/
def ratSqrt (q : ℚ) : ℚ :=
  if q ≤ 0 then 0 else (Nat.sqrt q.num.toNat : ℚ) / (Nat.sqrt q.den : ℚ)

/-! ### `src/vec.rs`: `Vec3` and its operations -/

/-- `Vec3` from `src/vec.rs` (also aliased `ColorRGB` and `Point3`). -/
structure Vec3 where
  x : ℚ
  y : ℚ
  z : ℚ
deriving DecidableEq, Repr

instance : Add Vec3 := ⟨fun a b => ⟨a.x + b.x, a.y + b.y, a.z + b.z⟩⟩

/-- Componentwise product (the `Mul<Vec3> for Vec3` impl). -/
instance : Mul Vec3 := ⟨fun a b => ⟨a.x * b.x, a.y * b.y, a.z * b.z⟩⟩

/-- Scalar multiple (the `Mul<f64>` impls). -/
instance : SMul ℚ Vec3 := ⟨fun k a => ⟨k * a.x, k * a.y, k * a.z⟩⟩

instance : Neg Vec3 := ⟨fun a => ⟨-a.x, -a.y, -a.z⟩⟩

/-- `Sub` is defined in the source as `self + (-1.0 * other)`. -/
instance : Sub Vec3 := ⟨fun a b => a + ((-1 : ℚ) • b)⟩

/-- `Vec3::O`. -/
def Vec3.O : Vec3 := ⟨0, 0, 0⟩

/-- `Vec3::dot`. -/
def Vec3.dot (a b : Vec3) : ℚ := a.x * b.x + a.y * b.y + a.z * b.z

/-- `Vec3::cross`. -/
def Vec3.cross (a b : Vec3) : Vec3 :=
  ⟨a.y * b.z - a.z * b.y, a.z * b.x - a.x * b.z, a.x * b.y - a.y * b.x⟩

/-- The squared norm.  The source writes `self.norm().powi(2)` with
`norm = sqrt(x² + y² + z²)`; since `sqrt(s)² = s` for the ideal real square
root, the squared norm is embedded exactly. -/
def Vec3.normSq (a : Vec3) : ℚ := a.x ^ 2 + a.y ^ 2 + a.z ^ 2

/-- `Vec3::norm`: `sqrt(x² + y² + z²)`. -/
def Vec3.norm (a : Vec3) : ℚ := ratSqrt a.normSq

/-- `Vec3::unit`: returns `O` when `f_eq(norm, 0)`, else `(1/norm) * self`. -/
def Vec3.unit (a : Vec3) : Vec3 :=
  if f_eq a.norm 0 then Vec3.O else (1 / a.norm) • a

/-- `Vec3::orthogonal`: `f_eq(v.dot(w), 0)`. -/
def Vec3.orthogonal (v w : Vec3) : Bool := f_eq (v.dot w) 0

/-- `Vec3::reflect`: `self - 2.0 * self.dot(normal) * normal`. -/
def Vec3.reflect (v normal : Vec3) : Vec3 := v - (2 * v.dot normal) • normal

/-- `colors::WHITE`. -/
def colorsWHITE : Vec3 := ⟨1, 1, 1⟩

/-- `colors::BLACK`. -/
def colorsBLACK : Vec3 := ⟨0, 0, 0⟩

/-- `Ray` from `src/vec.rs`: origin and direction. -/
structure Ray where
  origin : Vec3
  dir : Vec3
deriving DecidableEq, Repr

/-- `Ray::new` normalizes the direction. -/
def Ray.mk' (origin dir : Vec3) : Ray := ⟨origin, dir.unit⟩

/-- `Ray::at`: `origin + t * dir`. -/
def Ray.at (r : Ray) (t : ℚ) : Vec3 := r.origin + t • r.dir

/-! ### `Ray::get_color` (`src/vec.rs`, the integrator loop)

The loop interacts with the scene only through `world.is_hit` and the hit
material's `scatter`/`attenuation`/`emit`.  Per iteration this interaction
has exactly three observable outcomes, which we record as a trace of steps
consumed one per iteration:

* `miss bg` — `world.is_hit` returned `None`; `bg` is the value
  `bg(0.5 * (1.0 - ray.dir.y))` of the background function for the current
  ray;
* `hit a e true` — a hit whose material has attenuation `a`, emission `e`,
  and whose `scatter` returned `Some`;
* `hit a e false` — ditto but `scatter` returned `None`.
-/

/-- One observable iteration of the integrator loop. -/
inductive Step where
  | miss (bg : Vec3)
  | hit (a e : Vec3) (scattered : Bool)
deriving DecidableEq, Repr

/-- The loop body of `Ray::get_color`, with the running `color` accumulator
explicit.  Mirrors `src/vec.rs` lines 51–81: on a miss `color *= bg` and
break; on a hit whose material does not scatter
`color *= attenuation * emit` and break; on a scatter `color *= attenuation;
color += emit` and continue with the scattered ray. -/
def getColorAux : Vec3 → ℕ → List Step → Vec3
  | color, 0, _ => color
  | color, _ + 1, [] => color
  | color, _ + 1, Step.miss bg :: _ => color * bg
  | color, _ + 1, Step.hit a e false :: _ => color * (a * e)
  | color, depth + 1, Step.hit a e true :: rest =>
      getColorAux (color * a + e) depth rest

/-- `Ray::get_color`: the accumulator starts at `colors::WHITE` and the loop
runs for at most `depth` iterations. -/
def getColor (depth : ℕ) (steps : List Step) : Vec3 :=
  getColorAux colorsWHITE depth steps

/-- Modelled from the spec (§4.6 and the claims): the separate
radiance/throughput accounting `L += β·a·e` at every hit, `β ·= a` on
scatter, `L += β·bg` on miss, returning `L` (depth exhaustion returns `L`
with the remaining `β` dropped).  This is the claimed behaviour, to be
compared with `getColor` above. -/
def specGetColorAux : Vec3 → Vec3 → ℕ → List Step → Vec3
  | radiance, _, 0, _ => radiance
  | radiance, _, _ + 1, [] => radiance
  | radiance, beta, _ + 1, Step.miss bg :: _ => radiance + beta * bg
  | radiance, beta, _ + 1, Step.hit a e false :: _ => radiance + beta * (a * e)
  | radiance, beta, depth + 1, Step.hit a e true :: rest =>
      specGetColorAux (radiance + beta * (a * e)) (beta * a) depth rest

/-- The spec's integrator: `L` starts at black, `β` at white. -/
def specGetColor (depth : ℕ) (steps : List Step) : Vec3 :=
  specGetColorAux colorsBLACK colorsWHITE depth steps

/-- A trace terminates within `depth` iterations: some step before the depth
bound is a miss or a scatter failure. -/
def terminates : ℕ → List Step → Bool
  | 0, _ => false
  | _ + 1, [] => false
  | _ + 1, Step.miss _ :: _ => true
  | _ + 1, Step.hit _ _ false :: _ => true
  | depth + 1, Step.hit _ _ true :: rest => terminates depth rest

/-- A step that scatters has zero emission.  This holds for every material the
program ships (`Emissive` never scatters; the other materials inherit
`emit() = BLACK`), but not for an arbitrary implementor of the `Material`
trait. -/
def Step.scatterEmitsZero : Step → Prop
  | Step.hit _ e true => e = Vec3.O
  | _ => True

theorem Vec3.add_def (a b : Vec3) :
    a + b = ⟨a.x + b.x, a.y + b.y, a.z + b.z⟩ := rfl

theorem Vec3.mul_def (a b : Vec3) :
    a * b = ⟨a.x * b.x, a.y * b.y, a.z * b.z⟩ := rfl

theorem Vec3.smul_def (k : ℚ) (a : Vec3) :
    k • a = ⟨k * a.x, k * a.y, k * a.z⟩ := rfl

theorem Vec3.neg_def (a : Vec3) : -a = ⟨-a.x, -a.y, -a.z⟩ := rfl

theorem Vec3.sub_def (a b : Vec3) :
    a - b = ⟨a.x - b.x, a.y - b.y, a.z - b.z⟩ := by
  show a + ((-1 : ℚ) • b) = _
  simp only [Vec3.add_def, Vec3.smul_def, Vec3.mk.injEq]
  refine ⟨by ring, by ring, by ring⟩

theorem Vec3.zero_add (v : Vec3) : Vec3.O + v = v := by
  cases v; simp [Vec3.O, Vec3.add_def]

theorem Vec3.add_zero (v : Vec3) : v + Vec3.O = v := by
  cases v; simp [Vec3.O, Vec3.add_def]

theorem Vec3.mul_zero (v : Vec3) : v * Vec3.O = Vec3.O := by
  cases v; simp [Vec3.O, Vec3.mul_def]

/-- Under the two side conditions of claim C1's amendment the two integrators
agree, for any starting accumulator. -/
theorem getColorAux_eq_spec (steps : List Step) :
    ∀ (depth : ℕ) (color : Vec3),
      (∀ s ∈ steps, s.scatterEmitsZero) → terminates depth steps = true →
      getColorAux color depth steps = specGetColorAux Vec3.O color depth steps := by
  induction steps with
  | nil =>
      intro depth color _ hterm
      cases depth <;> simp [terminates] at hterm
  | cons s rest ih =>
      intro depth color hz hterm
      cases depth with
      | zero => simp [terminates] at hterm
      | succ d =>
          cases s with
          | miss bg =>
              simp [getColorAux, specGetColorAux, Vec3.zero_add]
          | hit a e sc =>
              cases sc with
              | false =>
                  simp [getColorAux, specGetColorAux, Vec3.zero_add]
              | true =>
                  have he : e = Vec3.O := hz _ (List.mem_cons_self _ _)
                  have hterm' : terminates d rest = true := by
                    simpa [terminates] using hterm
                  have hz' : ∀ s' ∈ rest, s'.scatterEmitsZero :=
                    fun s' hs' => hz s' (List.mem_cons_of_mem _ hs')
                  subst he
                  simp only [getColorAux, specGetColorAux, Vec3.mul_zero,
                    Vec3.add_zero]
                  exact ih d (color * a) hz' hterm'

/-- C1 (amended): the integrator's actual update is `color ·= a; color += e`
(emission added unscaled) on a scattering hit and `color ·= a·e` (the whole
accumulator, prior radiance included, multiplied) on a non-scattering hit;
this coincides with the claimed `L += β·a·e` / `β ·= a` accounting exactly
when every scattering hit has zero emission (true of all shipped materials)
and the path terminates by a miss or a scatter failure within the depth
bound. -/
theorem c1_integrator_accumulation (depth : ℕ) (steps : List Step)
    (hz : ∀ s ∈ steps, s.scatterEmitsZero)
    (hterm : terminates depth steps = true) :
    getColor depth steps = specGetColor depth steps :=
  getColorAux_eq_spec steps depth colorsWHITE hz hterm

theorem c1_integrator_accumulation_witness :
    getColor 2 [Step.hit ⟨1/2, 1/2, 1/2⟩ Vec3.O true, Step.miss ⟨1, 1, 1⟩] =
      specGetColor 2 [Step.hit ⟨1/2, 1/2, 1/2⟩ Vec3.O true, Step.miss ⟨1, 1, 1⟩] :=
  c1_integrator_accumulation 2
    [Step.hit ⟨1/2, 1/2, 1/2⟩ Vec3.O true, Step.miss ⟨1, 1, 1⟩]
    (by
      intro s hs
      simp only [List.mem_cons, List.not_mem_nil, or_false] at hs
      rcases hs with rfl | rfl <;> simp [Step.scatterEmitsZero])
    (by simp [terminates])

/-- C1 counterexample: for a (trait-level legal) material that both scatters
and emits, the code adds the emission unscaled and later multiplies the whole
accumulator, so its result differs from the claimed `L += β·a·e`, `β ·= a`
accounting: the code returns black while the claimed accounting returns
`(2,2,2)`. -/
theorem c1_counterexample :
    getColor 2 [Step.hit ⟨1, 1, 1⟩ ⟨2, 2, 2⟩ true, Step.miss ⟨0, 0, 0⟩] =
        ⟨0, 0, 0⟩ ∧
      specGetColor 2 [Step.hit ⟨1, 1, 1⟩ ⟨2, 2, 2⟩ true, Step.miss ⟨0, 0, 0⟩] =
        ⟨2, 2, 2⟩ ∧
      getColor 2 [Step.hit ⟨1, 1, 1⟩ ⟨2, 2, 2⟩ true, Step.miss ⟨0, 0, 0⟩] ≠
        specGetColor 2 [Step.hit ⟨1, 1, 1⟩ ⟨2, 2, 2⟩ true, Step.miss ⟨0, 0, 0⟩] := by
  refine ⟨?_, ?_, ?_⟩ <;>
    simp [getColor, getColorAux, specGetColor, specGetColorAux, colorsWHITE,
      colorsBLACK, Vec3.add_def, Vec3.mul_def, Vec3.mk.injEq]

/-- Helper for C2: a full-depth all-scatter trace folds the accumulator. -/
theorem getColorAux_all_scatter (l : List (Vec3 × Vec3)) :
    ∀ color : Vec3,
      getColorAux color l.length (l.map fun p => Step.hit p.1 p.2 true) =
        l.foldl (fun c p => c * p.1 + p.2) color := by
  induction l with
  | nil => intro color; simp [getColorAux]
  | cons p rest ih =>
      intro color
      simp only [List.map_cons, List.length_cons, List.foldl_cons, getColorAux]
      exact ih (color * p.1 + p.2)

/-- Helper: emissions that are all zero do not affect the fold. -/
theorem foldl_add_emit_zero (l : List (Vec3 × Vec3)) :
    (∀ p ∈ l, p.2 = Vec3.O) →
      ∀ c : Vec3,
        l.foldl (fun c p => c * p.1 + p.2) c = l.foldl (fun c p => c * p.1) c := by
  induction l with
  | nil => intro _ c; rfl
  | cons p rest ih =>
      intro hz c
      have hp := hz p (List.mem_cons_self _ _)
      simp only [List.foldl_cons, hp, Vec3.add_zero]
      exact ih (fun q hq => hz q (List.mem_cons_of_mem _ hq)) _

/-- C2 (amended): when the loop runs all `max_depth` iterations with every
iteration scattering off non-emissive materials, the returned color is the
running product of the attenuations starting from white — the accumulated
throughput is *returned*, not dropped, and the result is black only when that
product is black. -/
theorem c2_depth_exhaustion (l : List (Vec3 × Vec3))
    (hz : ∀ p ∈ l, p.2 = Vec3.O) :
    getColor l.length (l.map fun p => Step.hit p.1 p.2 true) =
      l.foldl (fun c p => c * p.1) colorsWHITE := by
  rw [getColor, getColorAux_all_scatter l colorsWHITE]
  exact foldl_add_emit_zero l hz colorsWHITE

theorem c2_depth_exhaustion_witness :
    getColor 1 [Step.hit ⟨1/2, 1/2, 1/2⟩ Vec3.O true] =
      [((⟨1/2, 1/2, 1/2⟩ : Vec3), Vec3.O)].foldl (fun c p => c * p.1) colorsWHITE := by
  have h := c2_depth_exhaustion [((⟨1/2, 1/2, 1/2⟩ : Vec3), Vec3.O)]
    (by
      intro p hp
      simp only [List.mem_singleton] at hp
      subst hp; rfl)
  simpa using h

/-- C2 counterexample: a single bounce off a non-emissive scattering material
with attenuation `(1/2,1/2,1/2)` at `max_depth = 1` makes the loop exhaust its
depth, and the code returns `(1/2,1/2,1/2)` — the leftover throughput — not
black as claimed. -/
theorem c2_counterexample :
    getColor 1 [Step.hit ⟨1/2, 1/2, 1/2⟩ Vec3.O true] = ⟨1/2, 1/2, 1/2⟩ ∧
      getColor 1 [Step.hit ⟨1/2, 1/2, 1/2⟩ Vec3.O true] ≠ colorsBLACK := by
  refine ⟨?_, ?_⟩ <;>
    simp [getColor, getColorAux, colorsWHITE, colorsBLACK, Vec3.O,
      Vec3.add_def, Vec3.mul_def, Vec3.mk.injEq]

/-! ### `src/geom/hit.rs`: axis-aligned bounding boxes

IEEE specials appear in the source only as the `±∞` union sentinels (absorbed
by the first `max`/`min`, so unions of nonempty lists fold from their head
here) and in `AxisAlignedBoundingBox::empty()` (the inverted infinite box
used as the SAH bucket accumulator, modelled as `Option` with `none` for the
never-updated empty box).
-/

/-- `Coord` from `src/vec.rs`. -/
inductive Coord where
  | X
  | Y
  | Z
deriving DecidableEq, Repr

/-- Indexing a `Vec3` by a `Coord` (the `Index<Coord>` impl). -/
def Vec3.coord (v : Vec3) : Coord → ℚ
  | Coord.X => v.x
  | Coord.Y => v.y
  | Coord.Z => v.z

/-- `AxisAlignedBoundingBox`: front-top-right and back-bottom-left corners.
The source also caches `center = 0.5*bbl + 0.5*ftr` (set in
`AxisAlignedBoundingBox::new`); here it is the derived function
`AxisAlignedBoundingBox.center`. -/
structure AxisAlignedBoundingBox where
  ftr_corner : Vec3
  bbl_corner : Vec3
deriving DecidableEq, Repr

namespace AxisAlignedBoundingBox

/-- The cached `center` field: `0.5 * &bbl_corner + 0.5 * &ftr_corner`. -/
def center (b : AxisAlignedBoundingBox) : Vec3 :=
  ((1 : ℚ) / 2) • b.bbl_corner + ((1 : ℚ) / 2) • b.ftr_corner

/-- `surface_area`: with `size = ftr - bbl`,
`2(size.x size.y + size.y size.z + size.x size.z)`. -/
def surface_area (b : AxisAlignedBoundingBox) : ℚ :=
  let size := b.ftr_corner - b.bbl_corner
  2 * size.x * size.y + 2 * size.y * size.z + 2 * size.x * size.z

/-- `volume`: product of the three extents. -/
def volume (b : AxisAlignedBoundingBox) : ℚ :=
  let size := b.ftr_corner - b.bbl_corner
  size.x * size.y * size.z

/-- `point_offset`: `point - bbl`, divided per coordinate by the extent when
`ftr > bbl` on that coordinate. -/
def point_offset (b : AxisAlignedBoundingBox) (point : Vec3) : Vec3 :=
  let offset := point - b.bbl_corner
  let adjust : ℚ → ℚ → ℚ → ℚ := fun o f l => if f > l then o / (f - l) else o
  ⟨adjust offset.x b.ftr_corner.x b.bbl_corner.x,
   adjust offset.y b.ftr_corner.y b.bbl_corner.y,
   adjust offset.z b.ftr_corner.z b.bbl_corner.z⟩

/-- `largest_extent_axis`: X if `f_geq(ext.x, max(ext.y, ext.z))`, else Y if
`f_geq(ext.y, ext.z)`, else Z. -/
def largest_extent_axis (b : AxisAlignedBoundingBox) : Coord :=
  let extent := b.ftr_corner - b.bbl_corner
  if f_geq extent.x (max extent.y extent.z) then Coord.X
  else if f_geq extent.y extent.z then Coord.Y
  else Coord.Z

/-- Componentwise union of two boxes (one step of the `union` fold). -/
def join (a b : AxisAlignedBoundingBox) : AxisAlignedBoundingBox :=
  ⟨⟨max a.ftr_corner.x b.ftr_corner.x, max a.ftr_corner.y b.ftr_corner.y,
    max a.ftr_corner.z b.ftr_corner.z⟩,
   ⟨min a.bbl_corner.x b.bbl_corner.x, min a.bbl_corner.y b.bbl_corner.y,
    min a.bbl_corner.z b.bbl_corner.z⟩⟩

/-- `union`: boxes `[]` give `new(O, O)`; otherwise the fold of the
componentwise `max`/`min` (the source starts from `∓∞` sentinels which the
first `max`/`min` absorbs, so the fold starts from the head here). -/
def union : List AxisAlignedBoundingBox → AxisAlignedBoundingBox
  | [] => ⟨Vec3.O, Vec3.O⟩
  | b :: rest => rest.foldl join b

/-- `union_from_points`: each point becomes the degenerate box
`new(point, point)`, then `union`. -/
def union_from_points (points : List Vec3) : AxisAlignedBoundingBox :=
  union (points.map fun p => ⟨p, p⟩)

end AxisAlignedBoundingBox

/-! ### `src/accel/bvh.rs`: construction

`BVH::build` pushes nodes into a `Vec` and returns indices; a node is either
a leaf (an index range into the object array) or an interior node with two
children.  The index graph built this way is exactly a binary tree, embedded
here as an inductive tree.  The recursion of `build` is run on explicit fuel
(`objects.len() + 1` at the root): whenever the source terminates the fuel is
never exhausted, because each recursive call strictly shrinks the range. -/

/-- A BVH node: leaf ranges `[start, stop)` into the object array, or an
interior node with a split axis and two children (`BVHNode` with its
`object_indices`/`children_indices` options resolved). -/
inductive BVHTree where
  | leaf (bounding_box : AxisAlignedBoundingBox) (object_indices : ℕ × ℕ)
  | node (bounding_box : AxisAlignedBoundingBox) (split_axis : Coord)
      (left right : BVHTree)
deriving DecidableEq, Repr

/-- The bounding box stored at the root of a subtree. -/
def BVHTree.box : BVHTree → AxisAlignedBoundingBox
  | BVHTree.leaf b _ => b
  | BVHTree.node b _ _ _ => b

def BVHTree.isLeaf : BVHTree → Bool
  | BVHTree.leaf _ _ => true
  | BVHTree.node _ _ _ _ => false

namespace BVH

variable {α : Type}

/-- `union_from_objs` specialised to an object list and its bounding-box
function (the `Bounded` trait method). -/
def union_from_objs (bbox : α → AxisAlignedBoundingBox) (objs : List α) :
    AxisAlignedBoundingBox :=
  AxisAlignedBoundingBox.union (objs.map bbox)

/-- The default `Bounded::centroid`: `bounding_box().center()` (no primitive
overrides it). -/
def centroid (bbox : α → AxisAlignedBoundingBox) (o : α) : Vec3 :=
  (bbox o).center

/-- `self.objects[start..end].to_vec()`. -/
def sliceOf (objs : List α) (start stop : ℕ) : List α :=
  (objs.drop start).take (stop - start)

/-- The `centroids_bounds` of `BVH::build`: the union of the degenerate boxes
of the centroids. -/
def centroidBoundsOf (bbox : α → AxisAlignedBoundingBox) (l : List α) :
    AxisAlignedBoundingBox :=
  AxisAlignedBoundingBox.union_from_points (l.map (centroid bbox))

/-- `(NUM_BUCKETS as f64 * offset) as usize`, then clamp `NUM_BUCKETS` down
to `NUM_BUCKETS - 1`.  The `as usize` cast truncates toward zero and
saturates below at `0`. -/
def bucketIdx (cb : AxisAlignedBoundingBox) (ax : Coord)
    (bbox : α → AxisAlignedBoundingBox) (o : α) : ℕ :=
  let off := (cb.point_offset (centroid bbox o)).coord ax
  let b := if (12 : ℚ) * off < 0 then 0 else ((12 : ℚ) * off).floor.toNat
  if b = 12 then 11 else b

/-- One bucket-accumulation step: `buckets[b].0 += 1`, and the bucket box is
`union([empty-or-current, obj box])`; the `AxisAlignedBoundingBox::empty()`
sentinel is absorbing, hence the `Option`. -/
def joinOpt (cur : Option AxisAlignedBoundingBox) (bx : AxisAlignedBoundingBox) :
    AxisAlignedBoundingBox :=
  match cur with
  | none => bx
  | some c => AxisAlignedBoundingBox.join c bx

/-- `union` over a list that may contain `empty()` sentinel boxes: `none`
when every entry is empty (the resulting corners stay at the `∓∞` sentinels,
whose surface area is not finite). -/
def unionOpts (l : List (Option AxisAlignedBoundingBox)) :
    Option AxisAlignedBoundingBox :=
  l.foldl
    (fun acc ob =>
      match acc, ob with
      | none, x => x
      | some a, none => some a
      | some a, some b => some (AxisAlignedBoundingBox.join a b))
    none

/-- `min_by` over the enumerated SAH costs with
`partial_cmp(..).unwrap_or(Equal)`: the first strictly smallest finite cost
wins; a `none` cost (a NaN produced by `0 · ∞` for a split with an empty
side) never displaces the accumulator and is never displaced. -/
def minByFirst (l : List (ℕ × Option ℚ)) : ℕ × Option ℚ :=
  match l with
  | [] => (0, some 0)
  | c :: rest =>
      rest.foldl
        (fun acc d =>
          match acc.2, d.2 with
          | some a, some b => if a > b then d else acc
          | _, _ => acc)
        c

/-- `min_cost.1 < &leaf_cost` (false when the minimal cost is NaN). -/
def ltOpt (c : Option ℚ) (n : ℚ) : Bool :=
  match c with
  | some c => c < n
  | none => false

/-- The surface-area-heuristic splitting decision of `BVH::build` (the
`else` branch for more than eight objects): bucket the primitives by
normalized centroid offset, score the eleven candidate splits, and pick the
first minimum.  Returns `some mid` when `min_cost < leaf_cost` (the source
then recurses on `[start, mid)` and `[mid, stop)` where `mid = start +
partition.0.len()`), and `none` when a leaf is emitted instead. -/
def sahMid (bbox : α → AxisAlignedBoundingBox) (objs : List α)
    (start stop : ℕ) : Option ℕ :=
  let slice := sliceOf objs start stop
  let num_objs := stop - start
  let bounds := union_from_objs bbox slice
  let centroids_bounds := centroidBoundsOf bbox slice
  let split_axis := centroids_bounds.largest_extent_axis
  let buckets := slice.foldl
    (fun bks o =>
      let b := bucketIdx centroids_bounds split_axis bbox o
      let cur := bks.getD b (0, none)
      bks.set b (cur.1 + 1, some (joinOpt cur.2 (bbox o))))
    (List.replicate 12 ((0 : ℕ), (none : Option AxisAlignedBoundingBox)))
  let bucket_counts := buckets.map Prod.fst
  let bucket_bounds := buckets.map Prod.snd
  let bucket_costs := (List.range 11).map fun i =>
    let left_bounds := unionOpts (bucket_bounds.take (i + 1))
    let right_bounds := unionOpts (bucket_bounds.drop (i + 1))
    let n_left := ((bucket_counts.take (i + 1)).sum : ℚ)
    let n_right := ((bucket_counts.drop (i + 1)).sum : ℚ)
    match left_bounds, right_bounds with
    | some lb, some rb =>
        some ((1 : ℚ) / 8 +
          (n_left * lb.surface_area + n_right * rb.surface_area) /
            bounds.surface_area)
    | _, _ => none
  let min_cost := minByFirst (bucket_costs.enum)
  let leaf_cost : ℚ := num_objs
  if ltOpt min_cost.2 leaf_cost then
    some (start + (slice.filter
      (fun o => bucketIdx centroids_bounds split_axis bbox o ≤ min_cost.1)).length)
  else none

/-- `BVH::build` on the index range `[start, stop)`.

The source computes a centroid-median partition of the objects in the
middle branch and a bucket partition in the SAH branch, but the write-back
of the partitioned array into `self.objects` is commented out in both places
(`src/accel/bvh.rs` lines 66 and 125), so the object array is never
reordered; only the partition *length* is observable (it determines `mid` in
the SAH branch, via `sahMid`), which is what this embedding keeps. -/
def buildAux (bbox : α → AxisAlignedBoundingBox) (objs : List α) :
    ℕ → ℕ → ℕ → BVHTree
  | 0, start, stop =>
      BVHTree.leaf (union_from_objs bbox (sliceOf objs start stop)) (start, stop)
  | fuel + 1, start, stop =>
      if stop - start ≤ 4 then
        BVHTree.leaf (union_from_objs bbox (sliceOf objs start stop))
          (start, stop)
      else if f_eq (centroidBoundsOf bbox (sliceOf objs start stop)).volume 0 then
        BVHTree.leaf (union_from_objs bbox (sliceOf objs start stop))
          (start, stop)
      else if stop - start ≤ 8 then
        -- `mid` is the midpoint: the centroid-median partition the source
        -- computes here is discarded (its write-back is commented out)
        BVHTree.node
          (AxisAlignedBoundingBox.union
            [(buildAux bbox objs fuel start ((start + stop) / 2)).box,
             (buildAux bbox objs fuel ((start + stop) / 2) stop).box])
          (centroidBoundsOf bbox (sliceOf objs start stop)).largest_extent_axis
          (buildAux bbox objs fuel start ((start + stop) / 2))
          (buildAux bbox objs fuel ((start + stop) / 2) stop)
      else
        match sahMid bbox objs start stop with
        | some mid =>
            BVHTree.node
              (AxisAlignedBoundingBox.union
                [(buildAux bbox objs fuel start mid).box,
                 (buildAux bbox objs fuel mid stop).box])
              (centroidBoundsOf bbox (sliceOf objs start stop)).largest_extent_axis
              (buildAux bbox objs fuel start mid)
              (buildAux bbox objs fuel mid stop)
        | none =>
            BVHTree.leaf (union_from_objs bbox (sliceOf objs start stop))
              (start, stop)

/-- `BVH::new`: build over the whole object array.  (The source also records
the root index; the tree embedding makes it implicit.) -/
def new (bbox : α → AxisAlignedBoundingBox) (objs : List α) : BVHTree :=
  buildAux bbox objs (objs.length + 1) 0 objs.length

end BVH

/-! ### `src/geom/hit.rs` / `src/geom/primitives.rs`: hits and spheres -/

/-- `Hit` from `src/geom/hit.rs`.  The `material: Arc<dyn Material>` pointer
is modelled as a numeric tag. -/
structure Hit where
  point : Vec3
  normal : Vec3
  t : ℚ
  outer : Bool
  matId : ℕ
deriving DecidableEq, Repr

/-- `Hit::new`: stores `normal.unit()` when `outer`, `-normal.unit()`
otherwise. -/
def Hit.new (point normal : Vec3) (t : ℚ) (outer : Bool) (matId : ℕ) : Hit :=
  ⟨point, if outer then normal.unit else -normal.unit, t, outer, matId⟩

/-- `Hit::FP_OFFSET`. -/
def Hit.FP_OFFSET : ℚ := 1 / 1000

/-- `Sphere`: center, radius, and a tag for the shared material. -/
structure Sphere where
  center : Vec3
  radius : ℚ
  matId : ℕ
deriving DecidableEq, Repr

/-- `Sphere`'s `Bounded::bounding_box`: `center ± (r, r, r)`. -/
def Sphere.bounding_box (s : Sphere) : AxisAlignedBoundingBox :=
  ⟨s.center + ⟨s.radius, s.radius, s.radius⟩,
   s.center - ⟨s.radius, s.radius, s.radius⟩⟩

/-- `Sphere::is_hit` (`src/geom/primitives.rs` lines 33–57): solve the
quadratic; `discriminant < 0` is a miss; otherwise return the first of the
two roots lying strictly inside `(t_min, t_max)`.  `vec_to_center.norm().powi(2)`
is the squared norm (exact under the ideal square root), and
`discriminant.sqrt()` is `ratSqrt` (exact on perfect squares; no theorem
below depends on its value elsewhere). -/
def Sphere.is_hit (s : Sphere) (ray : Ray) (t_min t_max : ℚ) : Option Hit :=
  let vec_to_center := ray.origin - s.center
  let center_dot_self := ray.dir.dot vec_to_center
  let discriminant := center_dot_self ^ 2 - (vec_to_center.normSq - s.radius ^ 2)
  if discriminant < 0 then none
  else
    let root := ratSqrt discriminant
    let t1 := -center_dot_self - root
    let t2 := -center_dot_self + root
    if t1 < t_max ∧ t1 > t_min then
      let normal := (1 / s.radius) • (ray.at t1 - s.center)
      let outer := ray.dir.dot normal < 0
      some (Hit.new (ray.at t1) normal t1 outer s.matId)
    else if t2 < t_max ∧ t2 > t_min then
      let normal := (1 / s.radius) • (ray.at t2 - s.center)
      let outer := ray.dir.dot normal < 0
      some (Hit.new (ray.at t2) normal t2 outer s.matId)
    else none

/-! ### Claims C4 and C5: BVH construction -/

/-- Root split axis, when the root is an interior node. -/
def BVHTree.rootSplitAxis : BVHTree → Option Coord
  | BVHTree.node _ ax _ _ => some ax
  | _ => none

/-- Object range of the root's left child, when it is a leaf. -/
def BVHTree.leftLeafRange : BVHTree → Option (ℕ × ℕ)
  | BVHTree.node _ _ (BVHTree.leaf _ rg) _ => some rg
  | _ => none

/-- Object range of the root's right child, when it is a leaf. -/
def BVHTree.rightLeafRange : BVHTree → Option (ℕ × ℕ)
  | BVHTree.node _ _ _ (BVHTree.leaf _ rg) => some rg
  | _ => none

/-- `sliceOf objs 0 objs.length` is the whole array. -/
theorem BVH.sliceOf_whole {α : Type} (objs : List α) :
    BVH.sliceOf objs 0 objs.length = objs := by
  simp [BVH.sliceOf]

/-- C5 (amended): on `[start, stop)` the source emits a leaf whenever
`stop - start ≤ 4` — before ever looking at the centroid bounds — or when the
centroid bounds have `f_eq`-zero volume; the centroid-median midpoint split
applies to ranges of five to eight objects with non-degenerate centroid
bounds (the threshold in the claim is off: 2–4 objects always give a leaf,
and the median path serves 5–8). -/
theorem c5_build_thresholds {α : Type} (bbox : α → AxisAlignedBoundingBox)
    (objs : List α) :
    (objs.length ≤ 4 →
      BVH.new bbox objs =
        BVHTree.leaf (BVH.union_from_objs bbox objs) (0, objs.length)) ∧
    (5 ≤ objs.length → objs.length ≤ 8 →
      f_eq (BVH.centroidBoundsOf bbox objs).volume 0 = false →
      BVH.new bbox objs =
        BVHTree.node
          (AxisAlignedBoundingBox.union
            [(BVH.buildAux bbox objs objs.length 0 (objs.length / 2)).box,
             (BVH.buildAux bbox objs objs.length (objs.length / 2)
                objs.length).box])
          (BVH.centroidBoundsOf bbox objs).largest_extent_axis
          (BVH.buildAux bbox objs objs.length 0 (objs.length / 2))
          (BVH.buildAux bbox objs objs.length (objs.length / 2) objs.length)) := by
  constructor
  · intro hlen
    rw [BVH.new, BVH.buildAux, BVH.sliceOf_whole]
    rw [if_pos (by omega)]
  · intro h5 h8 hvol
    rw [BVH.new, BVH.buildAux, BVH.sliceOf_whole]
    rw [if_neg (by omega)]
    simp only [hvol, Bool.false_eq_true, if_false]
    rw [if_pos (by omega)]
    simp only [Nat.zero_add]

/-- Four spheres whose centroids span a non-degenerate box. -/
def c5spheres : List Sphere :=
  [⟨⟨0, 0, 0⟩, 1, 0⟩, ⟨⟨9, 0, 0⟩, 1, 0⟩, ⟨⟨0, 9, 0⟩, 1, 0⟩, ⟨⟨0, 0, 9⟩, 1, 0⟩]

theorem c5_build_thresholds_witness :
    BVH.new Sphere.bounding_box c5spheres =
      BVHTree.leaf (BVH.union_from_objs Sphere.bounding_box c5spheres)
        (0, c5spheres.length) :=
  (c5_build_thresholds Sphere.bounding_box c5spheres).1 (by norm_num [c5spheres])

/-- C5 counterexample: four spheres with centroid bounds of volume 729
(non-degenerate, and `2 ≤ 4 ≤ 4`), for which the claim requires an interior
node split by centroid median — but `BVH::build` emits a leaf, because its
leaf test is `num_objs <= 4` and runs before the centroid bounds are even
computed. -/
theorem c5_counterexample :
    (BVH.new Sphere.bounding_box c5spheres).isLeaf = true ∧
      2 ≤ c5spheres.length ∧ c5spheres.length ≤ 4 ∧
      f_eq (BVH.centroidBoundsOf Sphere.bounding_box c5spheres).volume 0 =
        false := by
  refine ⟨?_, by norm_num [c5spheres], by norm_num [c5spheres], ?_⟩
  · have h : BVH.new Sphere.bounding_box c5spheres
        = BVH.buildAux Sphere.bounding_box c5spheres (4 + 1) 0 4 := rfl
    rw [h, BVH.buildAux]
    rw [if_pos (by norm_num)]
    simp [BVHTree.isLeaf]
  · norm_num [BVH.centroidBoundsOf, BVH.centroid, c5spheres, Sphere.bounding_box,
      AxisAlignedBoundingBox.union_from_points, AxisAlignedBoundingBox.union,
      AxisAlignedBoundingBox.join, AxisAlignedBoundingBox.center,
      AxisAlignedBoundingBox.volume, f_eq, FLOAT_THRESHOLD,
      Vec3.add_def, Vec3.sub_def, Vec3.smul_def, Vec3.mk.injEq, max_def, min_def]

/-- Five spheres for which the claimed reordering invariant fails: the object
with the largest centroid x-coordinate sits at index 0. -/
def c4spheres : List Sphere :=
  [⟨⟨10, 0, 0⟩, 1, 0⟩, ⟨⟨0, 1, 0⟩, 1, 0⟩, ⟨⟨1, 0, 1⟩, 1, 0⟩, ⟨⟨2, 1, 1⟩, 1, 0⟩,
   ⟨⟨3, 0, 0⟩, 1, 0⟩]

/-- C4: `BVH::build` never reorders the object array — the write-back of the
computed partition is commented out (`src/accel/bvh.rs` lines 66 and 125) —
so the claimed partition invariant fails.  On `c4spheres` the root splits
`[0, 5)` at `mid = 2` along x with median object `objs[2]` (centroid x = 1),
yet the object left at index 0 of the left range `[0, 2)` has centroid
x = 10, violating the claimed predicate `centroid < median centroid`. -/
theorem c4_build_no_reorder :
    (BVH.new Sphere.bounding_box c4spheres).rootSplitAxis = some Coord.X ∧
      (BVH.new Sphere.bounding_box c4spheres).leftLeafRange = some (0, 2) ∧
      (BVH.new Sphere.bounding_box c4spheres).rightLeafRange = some (2, 5) ∧
      ¬((BVH.centroid Sphere.bounding_box
            (c4spheres.getD 0 ⟨Vec3.O, 0, 0⟩)).coord Coord.X <
        (BVH.centroid Sphere.bounding_box
            (c4spheres.getD 2 ⟨Vec3.O, 0, 0⟩)).coord Coord.X) := by
  have h : BVH.new Sphere.bounding_box c4spheres
      = BVH.buildAux Sphere.bounding_box c4spheres (5 + 1) 0 5 := rfl
  have hslice : BVH.sliceOf c4spheres 0 5 = c4spheres := rfl
  have hcb : BVH.centroidBoundsOf Sphere.bounding_box c4spheres
      = ⟨⟨10, 1, 1⟩, ⟨0, 0, 0⟩⟩ := by
    norm_num [BVH.centroidBoundsOf, BVH.centroid, c4spheres, Sphere.bounding_box,
      AxisAlignedBoundingBox.union_from_points, AxisAlignedBoundingBox.union,
      AxisAlignedBoundingBox.join, AxisAlignedBoundingBox.center,
      Vec3.add_def, Vec3.sub_def, Vec3.smul_def, Vec3.mk.injEq, max_def, min_def]
  have hvol : f_eq (AxisAlignedBoundingBox.volume ⟨⟨10, 1, 1⟩, ⟨0, 0, 0⟩⟩) 0
      = false := by
    norm_num [AxisAlignedBoundingBox.volume, f_eq, FLOAT_THRESHOLD, Vec3.sub_def]
  have hax : AxisAlignedBoundingBox.largest_extent_axis ⟨⟨10, 1, 1⟩, ⟨0, 0, 0⟩⟩
      = Coord.X := by
    norm_num [AxisAlignedBoundingBox.largest_extent_axis, f_geq, f_eq,
      FLOAT_THRESHOLD, Vec3.sub_def, max_def]
  have hL : BVH.buildAux Sphere.bounding_box c4spheres 5 0 2
      = BVHTree.leaf
          (BVH.union_from_objs Sphere.bounding_box (BVH.sliceOf c4spheres 0 2))
          (0, 2) := by
    rw [show (5 : ℕ) = 4 + 1 from rfl, BVH.buildAux]
    rw [if_pos (by norm_num)]
  have hR : BVH.buildAux Sphere.bounding_box c4spheres 5 2 5
      = BVHTree.leaf
          (BVH.union_from_objs Sphere.bounding_box (BVH.sliceOf c4spheres 2 5))
          (2, 5) := by
    rw [show (5 : ℕ) = 4 + 1 from rfl, BVH.buildAux]
    rw [if_pos (by norm_num)]
  refine ⟨?_, ?_, ?_, ?_⟩ <;>
    first
      | (rw [h, BVH.buildAux]
         rw [if_neg (by norm_num)]
         rw [hslice, hcb]
         simp only [hvol, hax, Bool.false_eq_true, if_false]
         norm_num [hL, hR, BVHTree.rootSplitAxis, BVHTree.leftLeafRange,
           BVHTree.rightLeafRange])
      | (norm_num [BVH.centroid, c4spheres, Sphere.bounding_box,
           AxisAlignedBoundingBox.center, Vec3.add_def, Vec3.sub_def,
           Vec3.smul_def, Vec3.coord])

/-! ### Claim C3: BVH traversal versus the naive reference loop

`BVH::is_hit` (`src/accel/bvh.rs` lines 185–228) against
`HittableGroup::is_hit` (`src/geom.rs` lines 89–101).  Both are generic over
`dyn BoundedHittable` trait objects; the embedding is generic over the same
interface, an `is_hit` function per object.
-/

/-- One axis of `AxisAlignedBoundingBox::ray_intersects`: `1/d` (the
precomputed `dir_inverse` component; `1/0 = 0` in `ℚ` where IEEE yields `±∞`
— the equivalence theorem takes pruning conservativeness as a hypothesis, so
nothing below depends on this corner), slab entry/exit, swap for negative
inverse, clamp into the running window, and the `f_leq` early-out. -/
def slabAxis (b : AxisAlignedBoundingBox) (ray : Ray) (c : Coord)
    (st : ℚ × ℚ) : Option (ℚ × ℚ) :=
  let dir_inverse := 1 / ray.dir.coord c
  let t0 := dir_inverse * (b.bbl_corner.coord c - ray.origin.coord c)
  let t1 := dir_inverse * (b.ftr_corner.coord c - ray.origin.coord c)
  let tt := if dir_inverse < 0 then (t1, t0) else (t0, t1)
  let t_min := if tt.1 > st.1 then tt.1 else st.1
  let t_max := if tt.2 < st.2 then tt.2 else st.2
  if f_leq t_max t_min then none else some (t_min, t_max)

/-- `AxisAlignedBoundingBox::ray_intersects`: the three slab axes in order
with early return. -/
def AxisAlignedBoundingBox.ray_intersects (b : AxisAlignedBoundingBox)
    (ray : Ray) (t_min t_max : ℚ) : Option (ℚ × ℚ) :=
  (slabAxis b ray Coord.X (t_min, t_max)).bind fun st =>
    (slabAxis b ray Coord.Y st).bind fun st =>
      slabAxis b ray Coord.Z st

/-- The body of the tightening loops: intersect one object against the
current `(hit, closest_t)` state. -/
def objStep {α : Type} (isHit : α → Ray → ℚ → ℚ → Option Hit) (ray : Ray)
    (t_min : ℚ) (st : Option Hit × ℚ) (o : α) : Option Hit × ℚ :=
  match isHit o ray t_min st.2 with
  | some obj_hit => (some obj_hit, obj_hit.t)
  | none => st

/-- `HittableGroup::is_hit` (`src/geom.rs`): intersect every object in array
order, tightening `closest_t`, and return the recorded hit. -/
def HittableGroup.is_hit {α : Type} (isHit : α → Ray → ℚ → ℚ → Option Hit)
    (objs : List α) (ray : Ray) (t_min t_max : ℚ) : Option Hit :=
  (objs.foldl (objStep isHit ray t_min) (none, t_max)).1

/-- The leaf loop of `BVH::is_hit`: `for i in obj_start..obj_end`, indexing
the shared object array. -/
def leafFold {α : Type} (isHit : α → Ray → ℚ → ℚ → Option Hit)
    (objs : List α) (dflt : α) (ray : Ray) (t_min : ℚ) (s e : ℕ)
    (st : Option Hit × ℚ) : Option Hit × ℚ :=
  (List.range' s (e - s)).foldl
    (fun st i => objStep isHit ray t_min st (objs.getD i dflt)) st

def BVHTree.size : BVHTree → ℕ
  | BVHTree.leaf _ _ => 1
  | BVHTree.node _ _ l r => 1 + l.size + r.size

theorem BVHTree.size_pos (t : BVHTree) : 0 < t.size := by
  cases t <;> simp [BVHTree.size]

theorem BVHTree.sum_lt_cons (t : BVHTree) (stack : List BVHTree) :
    (stack.map BVHTree.size).sum < ((t :: stack).map BVHTree.size).sum := by
  have := BVHTree.size_pos t
  simp only [List.map_cons, List.sum_cons]
  omega

theorem BVHTree.sum_lt_node (b : AxisAlignedBoundingBox) (ax : Coord)
    (l r : BVHTree) (stack : List BVHTree) :
    ((l :: r :: stack).map BVHTree.size).sum <
      ((BVHTree.node b ax l r :: stack).map BVHTree.size).sum := by
  simp only [List.map_cons, List.sum_cons, BVHTree.size]
  omega

/-- The body of one iteration of the `BVH::is_hit` stack loop on a popped
node `n`: slab-test it against the current window (also rejecting when the
slab interval misses `[t_min, t_max]`, in which case the iteration
`continue`s with nothing pushed); a surviving leaf runs the tightening loop
over its range and shrinks `t_max` to the resulting `closest_t`; a surviving
interior node pushes the right child then the left (so the left is popped
first).  Returns the nodes to push and the updated `(hit, t_max)` state. -/
def bvhStep {α : Type} (isHit : α → Ray → ℚ → ℚ → Option Hit) (objs : List α)
    (dflt : α) (ray : Ray) (t_min : ℚ) (n : BVHTree) (hit : Option Hit)
    (t_max : ℚ) : List BVHTree × Option Hit × ℚ :=
  match n.box.ray_intersects ray t_min t_max with
  | none => ([], hit, t_max)
  | some nodeT =>
      -- `nodeT = (node_t_min, node_t_max)`
      if t_max < nodeT.1 ∨ nodeT.2 < t_min then ([], hit, t_max)
      else
        match n with
        | BVHTree.leaf _ rg =>
            -- `rg = (obj_start, obj_end)`
            let st := leafFold isHit objs dflt ray t_min rg.1 rg.2 (hit, t_max)
            ([], st.1, st.2)
        | BVHTree.node _ _ l r => ([l, r], hit, t_max)

theorem bvhStep_size {α : Type} (isHit : α → Ray → ℚ → ℚ → Option Hit)
    (objs : List α) (dflt : α) (ray : Ray) (t_min : ℚ) (n : BVHTree)
    (hit : Option Hit) (t_max : ℚ) :
    (((bvhStep isHit objs dflt ray t_min n hit t_max).1).map BVHTree.size).sum
      < n.size := by
  have hpos := BVHTree.size_pos n
  unfold bvhStep
  split
  · simpa using hpos
  · split
    · simpa using hpos
    · split <;> simp [BVHTree.size]

/-- The explicit-stack loop of `BVH::is_hit` (the `while let Some(node) =
node_stack.pop()` loop), iterated over the current stack with the running
`(hit, t_max)` state. -/
def bvhGo {α : Type} (isHit : α → Ray → ℚ → ℚ → Option Hit) (objs : List α)
    (dflt : α) (ray : Ray) (t_min : ℚ) :
    List BVHTree → Option Hit → ℚ → Option Hit
  | [], hit, _ => hit
  | n :: stack, hit, t_max =>
      let st := bvhStep isHit objs dflt ray t_min n hit t_max
      bvhGo isHit objs dflt ray t_min (st.1 ++ stack) st.2.1 st.2.2
termination_by stack _ _ => (stack.map BVHTree.size).sum
decreasing_by
  simp only [List.map_cons, List.sum_cons, List.map_append, List.sum_append]
  have := bvhStep_size isHit objs dflt ray t_min n hit t_max
  omega

/-- `BVH::is_hit`: seed the stack with the root. -/
def BVH.is_hit {α : Type} (isHit : α → Ray → ℚ → ℚ → Option Hit)
    (objs : List α) (dflt : α) (tree : BVHTree) (ray : Ray)
    (t_min t_max : ℚ) : Option Hit :=
  bvhGo isHit objs dflt ray t_min [tree] none t_max

/-- The pruning test of the traversal, as one predicate: the slab test
returns nothing, or the slab interval misses the current window. -/
def pruned (b : AxisAlignedBoundingBox) (ray : Ray) (t_min t_max : ℚ) : Bool :=
  (b.ray_intersects ray t_min t_max).elim true
    (fun nodeT => decide (t_max < nodeT.1 ∨ nodeT.2 < t_min))

/-- Conservative pruning, per subtree.  `Cons t s e` records that the leaf
ranges of `t` tile `[s, e)` in traversal order (true of every tree
`BVH::build` produces, `bvh_build_inOrder` below) and that whenever a node of
`t` is pruned at some window, none of the objects in its range intersects the
ray in that window — the soundness of the slab test over the objects'
bounding boxes, which is exactly what traversal relies on and what the
`f_leq` tolerance violates (see the C3 counterexample). -/
inductive Cons {α : Type} (isHit : α → Ray → ℚ → ℚ → Option Hit)
    (objs : List α) (dflt : α) (ray : Ray) (t_min : ℚ) :
    BVHTree → ℕ → ℕ → Prop where
  | leaf (box : AxisAlignedBoundingBox) (s e : ℕ) (hse : s ≤ e)
      (hprune : ∀ t_max, pruned box ray t_min t_max = true →
        ∀ i, s ≤ i → i < e → isHit (objs.getD i dflt) ray t_min t_max = none) :
      Cons isHit objs dflt ray t_min (BVHTree.leaf box (s, e)) s e
  | node (box : AxisAlignedBoundingBox) (ax : Coord) (l r : BVHTree)
      (s m e : ℕ)
      (hl : Cons isHit objs dflt ray t_min l s m)
      (hr : Cons isHit objs dflt ray t_min r m e)
      (hprune : ∀ t_max, pruned box ray t_min t_max = true →
        ∀ i, s ≤ i → i < e → isHit (objs.getD i dflt) ray t_min t_max = none) :
      Cons isHit objs dflt ray t_min (BVHTree.node box ax l r) s e

/-- A no-op fold: when every indexed object misses at the current window, the
tightening loop leaves the state unchanged. -/
theorem foldl_objStep_none {α : Type} (isHit : α → Ray → ℚ → ℚ → Option Hit)
    (objs : List α) (dflt : α) (ray : Ray) (t_min : ℚ) (idxs : List ℕ) :
    ∀ (hit : Option Hit) (hi : ℚ),
      (∀ i ∈ idxs, isHit (objs.getD i dflt) ray t_min hi = none) →
      idxs.foldl (fun st i => objStep isHit ray t_min st (objs.getD i dflt))
        (hit, hi) = (hit, hi) := by
  induction idxs with
  | nil => intro hit hi _; rfl
  | cons i rest ih =>
      intro hit hi h
      have h0 := h i (List.mem_cons_self _ _)
      simp only [List.foldl_cons, objStep, h0]
      exact ih hit hi fun j hj => h j (List.mem_cons_of_mem _ hj)

/-- Splitting a leaf-range fold at an intermediate index. -/
theorem leafFold_append {α : Type} (isHit : α → Ray → ℚ → ℚ → Option Hit)
    (objs : List α) (dflt : α) (ray : Ray) (t_min : ℚ) (s m e : ℕ)
    (hsm : s ≤ m) (hme : m ≤ e) (st : Option Hit × ℚ) :
    leafFold isHit objs dflt ray t_min s e st =
      leafFold isHit objs dflt ray t_min m e
        (leafFold isHit objs dflt ray t_min s m st) := by
  have hr : List.range' s (m - s) ++ List.range' m (e - m)
      = List.range' s (e - s) := by
    have := List.range'_append s (m - s) (e - m) 1
    simp only [one_mul] at this
    rw [show s + (m - s) = m by omega] at this
    rw [show e - m + (m - s) = e - s by omega] at this
    exact this
  rw [leafFold, leafFold, leafFold, ← hr, List.foldl_append]

/-- A pruned subtree contributes nothing: by `Cons`, every object in its
range misses at the pruning window. -/
theorem leafFold_pruned {α : Type} {isHit : α → Ray → ℚ → ℚ → Option Hit}
    {objs : List α} {dflt : α} {ray : Ray} {t_min hi : ℚ} {s e : ℕ}
    (h : ∀ i, s ≤ i → i < e → isHit (objs.getD i dflt) ray t_min hi = none)
    (hit : Option Hit) :
    leafFold isHit objs dflt ray t_min s e (hit, hi) = (hit, hi) := by
  rw [leafFold]
  apply foldl_objStep_none
  intro i hmem
  rw [List.mem_range'] at hmem
  obtain ⟨k, hk, rfl⟩ := hmem
  exact h _ (by omega) (by omega)

/-- The range of a `Cons`-conforming subtree is well-formed. -/
theorem Cons.range_le {α : Type} {isHit : α → Ray → ℚ → ℚ → Option Hit}
    {objs : List α} {dflt : α} {ray : Ray} {t_min : ℚ} {t : BVHTree}
    {s e : ℕ} (hc : Cons isHit objs dflt ray t_min t s e) : s ≤ e := by
  induction hc with
  | leaf box s e hse _ => exact hse
  | node box ax l r s m e hl hr _ ihl ihr => omega

/-- Core of the C3 equivalence: popping a `Cons`-conforming subtree from the
stack is the same as folding its whole object range through the tightening
loop. -/
theorem bvhStep_of_pruned {α : Type} {isHit : α → Ray → ℚ → ℚ → Option Hit}
    {objs : List α} {dflt : α} {ray : Ray} {t_min : ℚ} {n : BVHTree}
    {t_max : ℚ} (hp : pruned n.box ray t_min t_max = true) (hit : Option Hit) :
    bvhStep isHit objs dflt ray t_min n hit t_max = ([], hit, t_max) := by
  rw [pruned] at hp
  cases hri : n.box.ray_intersects ray t_min t_max with
  | none => unfold bvhStep; simp only [hri]
  | some nodeT =>
      rw [hri] at hp
      simp only [Option.elim_some, decide_eq_true_eq] at hp
      unfold bvhStep
      simp only [hri, if_pos hp]

theorem bvhStep_leaf_live {α : Type} {isHit : α → Ray → ℚ → ℚ → Option Hit}
    {objs : List α} {dflt : α} {ray : Ray} {t_min : ℚ}
    {box : AxisAlignedBoundingBox} {s e : ℕ} {t_max : ℚ}
    (hp : pruned (BVHTree.leaf box (s, e)).box ray t_min t_max = false)
    (hit : Option Hit) :
    bvhStep isHit objs dflt ray t_min (BVHTree.leaf box (s, e)) hit t_max =
      ([], (leafFold isHit objs dflt ray t_min s e (hit, t_max)).1,
        (leafFold isHit objs dflt ray t_min s e (hit, t_max)).2) := by
  rw [pruned] at hp
  cases hri : (BVHTree.leaf box (s, e)).box.ray_intersects ray t_min t_max with
  | none =>
      rw [hri] at hp
      simp only [Option.elim_none] at hp
      exact Bool.noConfusion hp
  | some nodeT =>
      rw [hri] at hp
      simp only [Option.elim_some, decide_eq_false_iff_not] at hp
      unfold bvhStep
      simp only [hri, if_neg hp]

theorem bvhStep_node_live {α : Type} {isHit : α → Ray → ℚ → ℚ → Option Hit}
    {objs : List α} {dflt : α} {ray : Ray} {t_min : ℚ}
    {box : AxisAlignedBoundingBox} {ax : Coord} {l r : BVHTree} {t_max : ℚ}
    (hp : pruned (BVHTree.node box ax l r).box ray t_min t_max = false)
    (hit : Option Hit) :
    bvhStep isHit objs dflt ray t_min (BVHTree.node box ax l r) hit t_max =
      ([l, r], hit, t_max) := by
  rw [pruned] at hp
  cases hri : (BVHTree.node box ax l r).box.ray_intersects ray t_min t_max with
  | none =>
      rw [hri] at hp
      simp only [Option.elim_none] at hp
      exact Bool.noConfusion hp
  | some nodeT =>
      rw [hri] at hp
      simp only [Option.elim_some, decide_eq_false_iff_not] at hp
      unfold bvhStep
      simp only [hri, if_neg hp]

theorem bvhGo_cons {α : Type} {isHit : α → Ray → ℚ → ℚ → Option Hit}
    {objs : List α} {dflt : α} {ray : Ray} {t_min : ℚ} {t : BVHTree}
    {s e : ℕ} (hc : Cons isHit objs dflt ray t_min t s e) :
    ∀ (stack : List BVHTree) (hit : Option Hit) (t_max : ℚ),
      bvhGo isHit objs dflt ray t_min (t :: stack) hit t_max =
        bvhGo isHit objs dflt ray t_min stack
          (leafFold isHit objs dflt ray t_min s e (hit, t_max)).1
          (leafFold isHit objs dflt ray t_min s e (hit, t_max)).2 := by
  induction hc with
  | leaf box s e hse hprune =>
      intro stack hit t_max
      rw [bvhGo]
      by_cases hp : pruned (BVHTree.leaf box (s, e)).box ray t_min t_max = true
      · rw [bvhStep_of_pruned hp hit]
        rw [leafFold_pruned (hprune t_max hp) hit]
        rfl
      · rw [bvhStep_leaf_live (Bool.not_eq_true _ ▸ hp : _) hit]
        rfl
  | node box ax l r s m e hl hr hprune ihl ihr =>
      intro stack hit t_max
      rw [bvhGo]
      by_cases hp : pruned (BVHTree.node box ax l r).box ray t_min t_max = true
      · rw [bvhStep_of_pruned hp hit]
        rw [leafFold_pruned (hprune t_max hp) hit]
        rfl
      · rw [bvhStep_node_live (Bool.not_eq_true _ ▸ hp : _) hit]
        have hstack : ([l, r] ++ stack) = l :: r :: stack := rfl
        rw [hstack, ihl (r :: stack) hit t_max, ihr stack _ _, Prod.mk.eta,
          leafFold_append isHit objs dflt ray t_min s m e hl.range_le
            hr.range_le (hit, t_max)]

theorem bvhGo_nil {α : Type} (isHit : α → Ray → ℚ → ℚ → Option Hit)
    (objs : List α) (dflt : α) (ray : Ray) (t_min : ℚ) (hit : Option Hit)
    (t_max : ℚ) : bvhGo isHit objs dflt ray t_min [] hit t_max = hit := by
  rw [bvhGo]

/-- Indexing fold over the whole array equals the direct list fold of the
naive loop. -/
theorem leafFold_whole {α : Type} (isHit : α → Ray → ℚ → ℚ → Option Hit)
    (objs : List α) (dflt : α) (ray : Ray) (t_min : ℚ) :
    ∀ (l : List α) (k : ℕ), objs.drop k = l →
      ∀ st, (List.range' k l.length).foldl
          (fun st i => objStep isHit ray t_min st (objs.getD i dflt)) st =
        l.foldl (objStep isHit ray t_min) st := by
  intro l
  induction l with
  | nil => intro k _ st; rfl
  | cons a rest ih =>
      intro k hdrop st
      have hk : objs.getD k dflt = a := by
        have h0 : objs[k]? = some a := by
          have h1 : (objs.drop k)[0]? = some a := by rw [hdrop]; simp
          rw [List.getElem?_drop] at h1
          simpa using h1
        simp [List.getD_eq_getElem?_getD, h0]
      have hrest : objs.drop (k + 1) = rest := by
        have h2 : (objs.drop k).drop 1 = rest := by rw [hdrop]; rfl
        rwa [List.drop_drop] at h2
      simp only [List.length_cons, List.range'_succ, List.foldl_cons, hk]
      exact ih (k + 1) hrest _

/-- C3 (amended): whenever pruning is conservative — no node of the built
tree whose slab test rejects (or whose slab interval misses the window)
contains an object that the ray hits inside that window — `BVH::is_hit`
returns exactly what the naive sequential loop `HittableGroup::is_hit`
returns, for every ray and window.  The `Cons` hypothesis is the
conservativeness (its structural half, that leaf ranges tile `[0, N)` in
order, holds of every built tree: `bvh_build_inOrder`); the C3 counterexample
shows it can fail through the `f_leq` tolerance, so it cannot be dropped. -/
theorem c3_bvh_matches_naive {α : Type} (isHit : α → Ray → ℚ → ℚ → Option Hit)
    (objs : List α) (dflt : α) (bbox : α → AxisAlignedBoundingBox) (ray : Ray)
    (t_min t_max : ℚ)
    (hc : Cons isHit objs dflt ray t_min (BVH.new bbox objs) 0 objs.length) :
    BVH.is_hit isHit objs dflt (BVH.new bbox objs) ray t_min t_max =
      HittableGroup.is_hit isHit objs ray t_min t_max := by
  rw [BVH.is_hit, bvhGo_cons hc [] none t_max, bvhGo_nil,
    HittableGroup.is_hit, leafFold]
  rw [show objs.length - 0 = objs.length by omega]
  exact congrArg Prod.fst
    (leafFold_whole isHit objs dflt ray t_min objs 0 rfl (none, t_max))

theorem c3_bvh_matches_naive_witness :
    BVH.is_hit Sphere.is_hit ([] : List Sphere) ⟨Vec3.O, 1, 0⟩
        (BVH.new Sphere.bounding_box []) ⟨Vec3.O, ⟨1, 0, 0⟩⟩ (1 / 1000) 100 =
      HittableGroup.is_hit Sphere.is_hit ([] : List Sphere)
        ⟨Vec3.O, ⟨1, 0, 0⟩⟩ (1 / 1000) 100 := by
  have htree : BVH.new Sphere.bounding_box ([] : List Sphere)
      = BVHTree.leaf ⟨Vec3.O, Vec3.O⟩ (0, 0) := rfl
  refine c3_bvh_matches_naive Sphere.is_hit [] ⟨Vec3.O, 1, 0⟩
    Sphere.bounding_box ⟨Vec3.O, ⟨1, 0, 0⟩⟩ (1 / 1000) 100 ?_
  rw [show ([] : List Sphere).length = 0 from rfl, htree]
  exact Cons.leaf ⟨Vec3.O, Vec3.O⟩ 0 0 (Nat.le_refl 0)
    (fun t_max _ i h1 h2 => absurd (Nat.lt_of_le_of_lt h1 h2) (by omega))

/-- Leaf ranges of a subtree tile its index range, in traversal order. -/
def InOrder : BVHTree → ℕ → ℕ → Prop
  | BVHTree.leaf _ rg, s, e => rg = (s, e)
  | BVHTree.node _ _ l r, s, e =>
      ∃ m, s ≤ m ∧ m ≤ e ∧ InOrder l s m ∧ InOrder r m e

theorem inOrder_node (b : AxisAlignedBoundingBox) (ax : Coord)
    (l r : BVHTree) (s m e : ℕ) (hl : InOrder l s m) (hr : InOrder r m e)
    (hsm : s ≤ m) (hme : m ≤ e) : InOrder (BVHTree.node b ax l r) s e :=
  ⟨m, hsm, hme, hl, hr⟩

theorem sliceOf_length_le {α : Type} (objs : List α) (s e : ℕ) :
    (BVH.sliceOf objs s e).length ≤ e - s := by
  simp only [BVH.sliceOf, List.length_take]
  omega

theorem mid_le {k m s e : ℕ} (hk : k ≤ m) (hm : m ≤ e - s) (hse : s ≤ e) :
    s + k ≤ e := by omega

/-- When the SAH decision chooses to split, the split point lies inside the
range: `mid = start + partition.0.len()` with the partition a sublist of the
slice `objs[start..stop]`. -/
theorem sahMid_bounds {α : Type} (bbox : α → AxisAlignedBoundingBox)
    (objs : List α) {s e mid : ℕ} (hse : s ≤ e)
    (h : BVH.sahMid bbox objs s e = some mid) : s ≤ mid ∧ mid ≤ e := by
  unfold BVH.sahMid at h
  simp only [] at h
  split at h
  · injection h with h'
    subst h'
    exact ⟨Nat.le_add_right _ _,
      mid_le (List.length_filter_le _ _) (sliceOf_length_le objs s e) hse⟩
  · exact Option.noConfusion h

/-- Structural soundness of construction: the leaf ranges of every tree
`BVH::build` produces tile the input range in order — whatever the SAH costs
or the degenerate-fuel fallback do, `mid` always lands inside `[start, stop]`. -/
theorem bvh_buildAux_inOrder {α : Type} (bbox : α → AxisAlignedBoundingBox)
    (objs : List α) :
    ∀ (fuel s e : ℕ), s ≤ e → InOrder (BVH.buildAux bbox objs fuel s e) s e := by
  intro fuel
  induction fuel with
  | zero => intro s e _; rfl
  | succ fuel ih =>
      intro s e hse
      rw [BVH.buildAux]
      split
      · rfl
      · split
        · rfl
        · split
          · exact inOrder_node _ _ _ _ _ _ _ (ih _ _ (by omega))
              (ih _ _ (by omega)) (by omega) (by omega)
          · split
            · rename_i mid heq
              obtain ⟨h1, h2⟩ := sahMid_bounds bbox objs hse heq
              exact inOrder_node _ _ _ _ _ _ _ (ih _ _ h1) (ih _ _ h2) h1 h2
            · rfl

theorem bvh_build_inOrder {α : Type} (bbox : α → AxisAlignedBoundingBox)
    (objs : List α) : InOrder (BVH.new bbox objs) 0 objs.length :=
  bvh_buildAux_inOrder bbox objs (objs.length + 1) 0 objs.length (Nat.zero_le _)

theorem ratSqrt_one : ratSqrt 1 = 1 := by
  norm_num [ratSqrt]

/-- A sphere grazed-free setup for the C3 counterexample: the ray
`origin O, direction (2/3, 2/3, 1/3)` (unit length) hits the sphere of
radius 1 centred at `(10/3, 10/3, 5/3)` at `t = 4`. -/
def c3sphere : Sphere := ⟨⟨10 / 3, 10 / 3, 5 / 3⟩, 1, 0⟩

def c3ray : Ray := ⟨Vec3.O, ⟨2 / 3, 2 / 3, 1 / 3⟩⟩

def c3lo : ℚ := 4 - 1 / 40000

def c3hi : ℚ := 4 + 1 / 40000

/-- C3 counterexample: with the window `(4 - 1/40000, 4 + 1/40000)` — of
width `1/20000`, below the `FLOAT_THRESHOLD` of `1e-4` — the slab test's
`f_leq(t_max, t_min)` tolerance rejects the root node even though the sphere
is hit at `t = 4` strictly inside the window, so `BVH::is_hit` returns
nothing while the naive sequential method returns the hit. -/
theorem c3_counterexample :
    BVH.is_hit Sphere.is_hit [c3sphere] ⟨Vec3.O, 1, 0⟩
        (BVH.new Sphere.bounding_box [c3sphere]) c3ray c3lo c3hi = none ∧
      (HittableGroup.is_hit Sphere.is_hit [c3sphere] c3ray c3lo c3hi).map Hit.t
        = some 4 ∧
      BVH.is_hit Sphere.is_hit [c3sphere] ⟨Vec3.O, 1, 0⟩
          (BVH.new Sphere.bounding_box [c3sphere]) c3ray c3lo c3hi ≠
        HittableGroup.is_hit Sphere.is_hit [c3sphere] c3ray c3lo c3hi := by
  have htree : BVH.new Sphere.bounding_box [c3sphere]
      = BVHTree.leaf
          (BVH.union_from_objs Sphere.bounding_box (BVH.sliceOf [c3sphere] 0 1))
          (0, 1) := rfl
  have hslab :
      (BVH.union_from_objs Sphere.bounding_box
          (BVH.sliceOf [c3sphere] 0 1)).ray_intersects c3ray c3lo c3hi
        = none := by
    norm_num [BVH.union_from_objs, BVH.sliceOf, AxisAlignedBoundingBox.union,
      Sphere.bounding_box, c3sphere, c3ray, c3lo, c3hi,
      AxisAlignedBoundingBox.ray_intersects, slabAxis, f_leq, f_eq,
      FLOAT_THRESHOLD, Vec3.add_def, Vec3.sub_def, Vec3.smul_def, Vec3.coord,
      Vec3.O]
    intro h
    rw [abs_of_pos (by norm_num : (0 : ℚ) < 1 / 20000)] at h
    norm_num at h
  have hp : pruned
      (BVHTree.leaf
        (BVH.union_from_objs Sphere.bounding_box (BVH.sliceOf [c3sphere] 0 1))
        (0, 1)).box c3ray c3lo c3hi = true := by
    rw [pruned]
    simp only [BVHTree.box]
    rw [hslab]
    rfl
  have hbvh : BVH.is_hit Sphere.is_hit [c3sphere] ⟨Vec3.O, 1, 0⟩
      (BVH.new Sphere.bounding_box [c3sphere]) c3ray c3lo c3hi = none := by
    rw [BVH.is_hit, htree, bvhGo]
    rw [bvhStep_of_pruned hp none]
    exact bvhGo_nil _ _ _ _ _ _ _
  have hsph : Sphere.is_hit c3sphere c3ray c3lo c3hi
      = some ⟨⟨8 / 3, 8 / 3, 4 / 3⟩, ⟨-2 / 3, -2 / 3, -1 / 3⟩, 4, true, 0⟩ := by
    norm_num [Sphere.is_hit, c3sphere, c3ray, c3lo, c3hi, Hit.new, Ray.at,
      Vec3.dot, Vec3.normSq, Vec3.unit, Vec3.norm, ratSqrt_one, Vec3.add_def,
      Vec3.sub_def, Vec3.smul_def, Vec3.neg_def, Vec3.O, Vec3.mk.injEq, f_eq,
      FLOAT_THRESHOLD]
  have hnaive : HittableGroup.is_hit Sphere.is_hit [c3sphere] c3ray c3lo c3hi
      = some ⟨⟨8 / 3, 8 / 3, 4 / 3⟩, ⟨-2 / 3, -2 / 3, -1 / 3⟩, 4, true, 0⟩ := by
    rw [HittableGroup.is_hit]
    simp only [List.foldl_cons, List.foldl_nil, objStep, hsph]
  refine ⟨hbvh, ?_, ?_⟩
  · rw [hnaive]; rfl
  · rw [hbvh, hnaive]; simp

/-! ### Claim C6: intersection windows (`Sphere::is_hit`, `Volume::is_hit`)

`Volume::is_hit` (`src/geom/objects.rs` lines 261–291) queries its boundary
twice: first with the window `(-∞, +∞)` and then with
`(entry.t + FP_OFFSET, +∞)`.  The boundary is a trait object; it is modelled
as the pair of those two specialised queries.  The free-flight distance
`inv_density * -log10(U)` is modelled by passing `-log10(U)` as the explicit
parameter `negLog10U` (positive for `U ∈ (0, 1)`). -/

structure VolumeBoundary where
  firstHit : Ray → Option Hit
  nextHit : Ray → ℚ → Option Hit

theorem ratSqrt_zero : ratSqrt 0 = 0 := by norm_num [ratSqrt]

/-- `Volume::is_hit`.  The `?` on the first boundary query is `Option.bind`;
when the second query finds no exit the *entry hit is returned unchecked*;
otherwise the entry/exit times are clamped to the caller's window, an
`f_geq`-empty interval is a miss, a free flight longer than the interval is a
miss, and otherwise the hit is at `entry.t + hit_dist` with a zero normal,
`outer = true` and the volume's material. -/
def Volume.is_hit (B : VolumeBoundary) (inv_density negLog10U : ℚ)
    (matId : ℕ) (ray : Ray) (t_min t_max : ℚ) : Option Hit :=
  (B.firstHit ray).bind fun entry_hit =>
    (B.nextHit ray (entry_hit.t + Hit.FP_OFFSET)).elim (some entry_hit)
      fun exit_hit =>
        let entry_t := if entry_hit.t < t_min then t_min else entry_hit.t
        let exit_t := if exit_hit.t > t_max then t_max else exit_hit.t
        if f_geq entry_t exit_t then none
        else
          let entry_exit_dist := exit_t - entry_t
          let hit_dist := inv_density * negLog10U
          if hit_dist > entry_exit_dist then none
          else some (Hit.new (ray.at (entry_t + hit_dist)) Vec3.O
            (entry_t + hit_dist) true matId)

/-- `Sphere::is_hit` with the window `(-∞, +∞)` of the volume's first
boundary query: every finite root passes `t1 < ∞ && t1 > -∞`, so the first
root is returned whenever the discriminant is non-negative. -/
def Sphere.is_hit_inf (s : Sphere) (ray : Ray) : Option Hit :=
  let vec_to_center := ray.origin - s.center
  let center_dot_self := ray.dir.dot vec_to_center
  let discriminant := center_dot_self ^ 2 - (vec_to_center.normSq - s.radius ^ 2)
  if discriminant < 0 then none
  else
    let t1 := -center_dot_self - ratSqrt discriminant
    let normal := (1 / s.radius) • (ray.at t1 - s.center)
    let outer := ray.dir.dot normal < 0
    some (Hit.new (ray.at t1) normal t1 outer s.matId)

/-- `Sphere::is_hit` with the window `(lo, +∞)` of the volume's second
boundary query: the root tests reduce to `t > lo`. -/
def Sphere.is_hit_from (s : Sphere) (ray : Ray) (lo : ℚ) : Option Hit :=
  let vec_to_center := ray.origin - s.center
  let center_dot_self := ray.dir.dot vec_to_center
  let discriminant := center_dot_self ^ 2 - (vec_to_center.normSq - s.radius ^ 2)
  if discriminant < 0 then none
  else
    let t1 := -center_dot_self - ratSqrt discriminant
    let t2 := -center_dot_self + ratSqrt discriminant
    if t1 > lo then
      let normal := (1 / s.radius) • (ray.at t1 - s.center)
      some (Hit.new (ray.at t1) normal t1 (ray.dir.dot normal < 0) s.matId)
    else if t2 > lo then
      let normal := (1 / s.radius) • (ray.at t2 - s.center)
      some (Hit.new (ray.at t2) normal t2 (ray.dir.dot normal < 0) s.matId)
    else none

/-- A sphere, as a `Volume` boundary. -/
def Sphere.boundary (s : Sphere) : VolumeBoundary :=
  ⟨s.is_hit_inf, s.is_hit_from⟩

/-- C6 (amended): `Sphere::is_hit` only returns hits strictly inside the
window, and `Volume::is_hit` does so too (with `t ≤ t_max` rather than
strict) on its sampling path — when the second boundary query finds an exit
and the free-flight sample is positive.  On the exit-missing path the entry
hit is returned with no window check at all (see the counterexample), which
is what falsifies the claim. -/
theorem c6_window_soundness :
    (∀ (s : Sphere) (ray : Ray) (lo hi : ℚ) (h : Hit),
      Sphere.is_hit s ray lo hi = some h → lo < h.t ∧ h.t < hi) ∧
    (∀ (B : VolumeBoundary) (inv_density negLog10U : ℚ) (matId : ℕ)
        (ray : Ray) (lo hi : ℚ) (entry_hit exit_hit h : Hit),
      B.firstHit ray = some entry_hit →
      B.nextHit ray (entry_hit.t + Hit.FP_OFFSET) = some exit_hit →
      0 < inv_density * negLog10U →
      Volume.is_hit B inv_density negLog10U matId ray lo hi = some h →
      lo < h.t ∧ h.t ≤ hi) := by
  constructor
  · intro s ray lo hi h hs
    rw [Sphere.is_hit] at hs
    simp only [] at hs
    split at hs
    · exact Option.noConfusion hs
    · split at hs
      · rename_i ht1
        injection hs with hs'
        rw [← hs']
        exact ⟨ht1.2, ht1.1⟩
      · split at hs
        · rename_i ht2
          injection hs with hs'
          rw [← hs']
          exact ⟨ht2.2, ht2.1⟩
        · exact Option.noConfusion hs
  · intro B inv_density negLog10U matId ray lo hi entry_hit exit_hit h
      hfirst hnext hdist hv
    rw [Volume.is_hit, hfirst, Option.some_bind, hnext, Option.elim_some] at hv
    simp only [] at hv
    set entry_t := if entry_hit.t < lo then lo else entry_hit.t with hentry_def
    set exit_t := if exit_hit.t > hi then hi else exit_hit.t with hexit_def
    have hentry : lo ≤ entry_t := by
      rw [hentry_def]
      split
      · exact le_rfl
      · rename_i h0; exact le_of_not_lt h0
    have hexit : exit_t ≤ hi := by
      rw [hexit_def]
      split
      · exact le_rfl
      · rename_i h0; exact le_of_not_lt h0
    split at hv
    · exact Option.noConfusion hv
    · split at hv
      · exact Option.noConfusion hv
      · rename_i hgeq hfar
        injection hv with hv'
        rw [← hv']
        push_neg at hfar
        refine ⟨?_, ?_⟩
        · show lo < entry_t + inv_density * negLog10U
          exact lt_of_le_of_lt hentry (by linarith)
        · show entry_t + inv_density * negLog10U ≤ hi
          linarith

theorem c6_window_soundness_witness :
    ((1 : ℚ) < (⟨⟨4, 0, 0⟩, ⟨-1, 0, 0⟩, 4, true, 0⟩ : Hit).t ∧
      ((⟨⟨4, 0, 0⟩, ⟨-1, 0, 0⟩, 4, true, 0⟩ : Hit).t : ℚ) < 100) ∧
    ((1 / 1000 : ℚ) < (⟨⟨5, 0, 0⟩, ⟨0, 0, 0⟩, 5, true, 0⟩ : Hit).t ∧
      ((⟨⟨5, 0, 0⟩, ⟨0, 0, 0⟩, 5, true, 0⟩ : Hit).t : ℚ) ≤ 100) :=
  ⟨c6_window_soundness.1 ⟨⟨5, 0, 0⟩, 1, 0⟩ ⟨Vec3.O, ⟨1, 0, 0⟩⟩ 1 100
      ⟨⟨4, 0, 0⟩, ⟨-1, 0, 0⟩, 4, true, 0⟩
      (by norm_num [Sphere.is_hit, Hit.new, Ray.at, Vec3.dot, Vec3.normSq,
        Vec3.unit, Vec3.norm, ratSqrt_one, f_eq, FLOAT_THRESHOLD, Vec3.add_def,
        Vec3.sub_def, Vec3.smul_def, Vec3.neg_def, Vec3.O, Vec3.mk.injEq]),
   c6_window_soundness.2 (Sphere.boundary ⟨⟨5, 0, 0⟩, 1, 0⟩) 1 1 0
      ⟨Vec3.O, ⟨1, 0, 0⟩⟩ (1 / 1000) 100
      ⟨⟨4, 0, 0⟩, ⟨-1, 0, 0⟩, 4, true, 0⟩ ⟨⟨6, 0, 0⟩, ⟨-1, 0, 0⟩, 6, false, 0⟩
      ⟨⟨5, 0, 0⟩, ⟨0, 0, 0⟩, 5, true, 0⟩
      (by norm_num [Sphere.boundary, Sphere.is_hit_inf, Hit.new, Ray.at,
        Vec3.dot, Vec3.normSq, Vec3.unit, Vec3.norm, ratSqrt_one, f_eq,
        FLOAT_THRESHOLD, Vec3.add_def, Vec3.sub_def, Vec3.smul_def,
        Vec3.neg_def, Vec3.O, Vec3.mk.injEq])
      (by norm_num [Sphere.boundary, Sphere.is_hit_from, Hit.new, Hit.FP_OFFSET,
        Ray.at, Vec3.dot, Vec3.normSq, Vec3.unit, Vec3.norm, ratSqrt_one, f_eq,
        FLOAT_THRESHOLD, Vec3.add_def, Vec3.sub_def, Vec3.smul_def,
        Vec3.neg_def, Vec3.O, Vec3.mk.injEq])
      (by norm_num)
      (by norm_num [Volume.is_hit, Sphere.boundary, Sphere.is_hit_inf,
        Sphere.is_hit_from, f_geq, f_eq, FLOAT_THRESHOLD, Hit.new, Hit.FP_OFFSET,
        Ray.at, Vec3.dot, Vec3.normSq, Vec3.unit, Vec3.norm, ratSqrt_one,
        ratSqrt_zero, Vec3.add_def, Vec3.sub_def, Vec3.smul_def, Vec3.neg_def,
        Vec3.O, Vec3.mk.injEq, Option.some_bind, Option.elim_some])⟩

/-- C6 counterexample: a ray grazing the boundary sphere (center `(0,1,0)`,
radius 1) enters at `t = 0` and the second boundary query (from
`t = FP_OFFSET`) finds no exit, so `Volume::is_hit` takes the early-return
branch and hands back the entry hit at `t = 0` even though the window is
`(1/1000, 100)` — the returned `t` is not greater than `t_min`. -/
theorem c6_counterexample :
    Volume.is_hit (Sphere.boundary ⟨⟨0, 1, 0⟩, 1, 0⟩) 1 1 0
        ⟨Vec3.O, ⟨1, 0, 0⟩⟩ (1 / 1000) 100
      = some ⟨⟨0, 0, 0⟩, ⟨0, 1, 0⟩, 0, false, 0⟩ ∧
    ¬ ((1 / 1000 : ℚ) < (0 : ℚ)) := by
  constructor
  · norm_num [Volume.is_hit, Sphere.boundary, Sphere.is_hit_inf,
      Sphere.is_hit_from, Hit.new, Hit.FP_OFFSET, Ray.at, Vec3.dot,
      Vec3.normSq, Vec3.unit, Vec3.norm, ratSqrt_zero, ratSqrt_one, f_eq,
      FLOAT_THRESHOLD, Vec3.add_def, Vec3.sub_def, Vec3.smul_def, Vec3.neg_def,
      Vec3.O, Vec3.mk.injEq, Option.some_bind, Option.elim_none]
  · norm_num

/-! ### Claim C7: PPM serialization (`write_pixel`, `create_ppm`)

The cited `src/lib.rs` writes each component as `(255.999 * pixel[c]) as u32`
with no square root and no clamp.  The `as u32` cast of an `f64` saturates:
negative values go to 0, values at or above `2^32` go to `2^32 - 1`, and
in-range values truncate toward zero. -/

def castU32 (q : ℚ) : ℕ :=
  if q < 0 then 0 else min (Int.toNat ⌊q⌋) (2 ^ 32 - 1)

/-- `write_pixel` (`src/lib.rs` lines 8-14). -/
def write_pixel (pixel : Vec3) : String :=
  Nat.repr (castU32 (255999 / 1000 * pixel.x)) ++ " " ++
  Nat.repr (castU32 (255999 / 1000 * pixel.y)) ++ " " ++
  Nat.repr (castU32 (255999 / 1000 * pixel.z)) ++ "\n"

/-- `create_ppm` (`src/lib.rs` lines 17-32): the header followed by the
pixel lines in row-major order (the progress reporting on stderr does not
affect the returned string). -/
def create_ppm (pixels : List (List Vec3)) (width height max_colors : ℕ) :
    String :=
  "P3\n" ++ Nat.repr width ++ " " ++ Nat.repr height ++ "\n" ++
    Nat.repr max_colors ++ "\n" ++
  String.join (pixels.map fun row => String.join (row.map write_pixel))

/-- The component integer claimed by the spec (written from the spec text,
for comparison): gamma-correct, clamp to [0, 1], scale and floor. -/
def specComponent (c : ℚ) : ℤ := ⌊255999 / 1000 * f_clamp (ratSqrt c) 0 1⌋

theorem castU32_unit (c : ℚ) (h0 : 0 ≤ c) (h1 : c ≤ 1) :
    castU32 (255999 / 1000 * c) = Int.toNat ⌊(255999 / 1000 * c : ℚ)⌋ ∧
    castU32 (255999 / 1000 * c) ≤ 255 := by
  have hq0 : (0 : ℚ) ≤ 255999 / 1000 * c := mul_nonneg (by norm_num) h0
  have hq1 : (255999 / 1000 * c : ℚ) < 256 := by nlinarith
  have hfl : ⌊(255999 / 1000 * c : ℚ)⌋ < 256 :=
    Int.floor_lt.mpr (by exact_mod_cast hq1)
  have htn : Int.toNat ⌊(255999 / 1000 * c : ℚ)⌋ ≤ 255 := by omega
  rw [castU32, if_neg (not_lt.mpr hq0),
    Nat.min_eq_left (le_trans htn (by norm_num))]
  exact ⟨rfl, htn⟩

/-- C7 (amended): for in-gamut components (each in [0, 1]) the serializer
emits the line R G B newline whose integer components are
`floor(255.999 * c)` - with NO gamma correction and NO clamp applied by the
cited code - and each such component is at most 255; `create_ppm` is the
header followed by the pixel lines.  The counterexample shows the claimed
`floor(255.999 * clamp(sqrt(c), 0, 1))` disagrees at `c = 1/4` and that
out-of-gamut components exceed 255. -/
theorem c7_ppm_format (p : Vec3)
    (hx0 : 0 ≤ p.x) (hx1 : p.x ≤ 1) (hy0 : 0 ≤ p.y) (hy1 : p.y ≤ 1)
    (hz0 : 0 ≤ p.z) (hz1 : p.z ≤ 1) :
    write_pixel p =
      Nat.repr (Int.toNat ⌊(255999 / 1000 * p.x : ℚ)⌋) ++ " " ++
      Nat.repr (Int.toNat ⌊(255999 / 1000 * p.y : ℚ)⌋) ++ " " ++
      Nat.repr (Int.toNat ⌊(255999 / 1000 * p.z : ℚ)⌋) ++ "\n" ∧
    castU32 (255999 / 1000 * p.x) ≤ 255 ∧
    castU32 (255999 / 1000 * p.y) ≤ 255 ∧
    castU32 (255999 / 1000 * p.z) ≤ 255 ∧
    create_ppm [[p]] 1 1 255 = "P3\n1 1\n255\n" ++ write_pixel p := by
  obtain ⟨hex, hbx⟩ := castU32_unit p.x hx0 hx1
  obtain ⟨hey, hby⟩ := castU32_unit p.y hy0 hy1
  obtain ⟨hez, hbz⟩ := castU32_unit p.z hz0 hz1
  refine ⟨?_, hbx, hby, hbz, ?_⟩
  · rw [write_pixel, hex, hey, hez]
  · rfl

theorem c7_ppm_format_witness :
    write_pixel ⟨0, 1 / 2, 1⟩ = "0 127 255\n" ∧
    castU32 (255999 / 1000 * (1 / 2 : ℚ)) ≤ 255 := by
  have h := c7_ppm_format ⟨0, 1 / 2, 1⟩ (by norm_num) (by norm_num)
    (by norm_num) (by norm_num) (by norm_num) (by norm_num)
  refine ⟨?_, h.2.2.1⟩
  rw [h.1]
  show Nat.repr (Int.toNat ⌊(255999 / 1000 * (0 : ℚ))⌋) ++ " " ++
    Nat.repr (Int.toNat ⌊(255999 / 1000 * (1 / 2 : ℚ))⌋) ++ " " ++
    Nat.repr (Int.toNat ⌊(255999 / 1000 * (1 : ℚ))⌋) ++ "\n" = "0 127 255\n"
  have f0 : ⌊(255999 / 1000 * (0 : ℚ))⌋ = 0 := by norm_num
  have f127 : ⌊(255999 / 1000 * (1 / 2 : ℚ))⌋ = 127 := by
    rw [Int.floor_eq_iff]; norm_num
  have f255 : ⌊(255999 / 1000 * (1 : ℚ))⌋ = 255 := by
    rw [Int.floor_eq_iff]; norm_num
  rw [f0, f127, f255]
  rfl

/-- C7 counterexample: the cited `write_pixel` applies neither gamma nor a
clamp.  For the component 1/4 the code emits 63 while the claimed
`floor(255.999 * clamp(sqrt(c), 0, 1))` is 127 (the repo's own
`create_basic_ppm` test expects 63 for the 0.25 channel); for the
out-of-gamut component 4 the emitted integer is 1023 > 255. -/
theorem c7_counterexample :
    castU32 (255999 / 1000 * (1 / 4 : ℚ)) = 63 ∧
    specComponent (1 / 4) = 127 ∧
    write_pixel ⟨1 / 4, 1 / 4, 4⟩ = "63 63 1023\n" ∧
    ¬ (castU32 (255999 / 1000 * (4 : ℚ)) ≤ 255) := by
  have f63 : ⌊(255999 / 1000 * (1 / 4 : ℚ))⌋ = 63 := by
    rw [Int.floor_eq_iff]; norm_num
  have f1023 : ⌊(255999 / 1000 * (4 : ℚ))⌋ = 1023 := by
    rw [Int.floor_eq_iff]; norm_num
  have c63 : castU32 (255999 / 1000 * (1 / 4 : ℚ)) = 63 := by
    rw [castU32, if_neg (by norm_num), f63]
    rfl
  have c1023 : castU32 (255999 / 1000 * (4 : ℚ)) = 1023 := by
    rw [castU32, if_neg (by norm_num), f1023]
    rfl
  refine ⟨c63, ?_, ?_, ?_⟩
  · have hs : ratSqrt (1 / 4) = 1 / 2 := by
      rw [ratSqrt, if_neg (by norm_num)]
      norm_num
    have hc : f_clamp (ratSqrt (1 / 4)) 0 1 = 1 / 2 := by
      rw [hs, f_clamp]
      norm_num
    rw [specComponent, hc, Int.floor_eq_iff]; norm_num
  · show Nat.repr (castU32 (255999 / 1000 * (1 / 4 : ℚ))) ++ " " ++
      Nat.repr (castU32 (255999 / 1000 * (1 / 4 : ℚ))) ++ " " ++
      Nat.repr (castU32 (255999 / 1000 * (4 : ℚ))) ++ "\n" = "63 63 1023\n"
    rw [c63, c1023]
    rfl
  · rw [c1023]
    norm_num

/-! ### Claim C8: `Reflective::scatter` -/

/-- `Reflective::scatter` (`src/material.rs` lines 70-74), with the sampled
random unit vector passed explicitly.  `Ray::new` normalizes the direction,
so the tested direction is the unit vector of
`reflect(in_ray.dir, normal) + roughness * random_unit`. -/
def Reflective.scatter (roughness : ℚ) (random_unit : Vec3) (in_ray : Ray)
    (hit : Hit) : Option Ray :=
  if (Ray.mk' hit.point
        (in_ray.dir.reflect hit.normal + roughness • random_unit)).dir.dot
      hit.normal > 0
  then some (Ray.mk' hit.point
    (in_ray.dir.reflect hit.normal + roughness • random_unit))
  else none

/-- C8 (confirmed): `Reflective::scatter` returns some ray exactly when that
ray is the reflected-plus-fuzz ray and its (normalized) direction makes a
strictly positive dot product with the hit normal; whenever the dot product
is at most zero it returns none. -/
theorem c8_reflective_scatter (roughness : ℚ) (random_unit : Vec3)
    (in_ray : Ray) (hit : Hit) :
    (∀ s, Reflective.scatter roughness random_unit in_ray hit = some s ↔
      s = Ray.mk' hit.point
          (in_ray.dir.reflect hit.normal + roughness • random_unit) ∧
        (Ray.mk' hit.point
          (in_ray.dir.reflect hit.normal + roughness • random_unit)).dir.dot
            hit.normal > 0) ∧
    ((Ray.mk' hit.point
        (in_ray.dir.reflect hit.normal + roughness • random_unit)).dir.dot
          hit.normal ≤ 0 →
      Reflective.scatter roughness random_unit in_ray hit = none) := by
  constructor
  · intro s
    rw [Reflective.scatter]
    split
    · rename_i hpos
      constructor
      · intro h
        injection h with h
        exact ⟨h.symm, hpos⟩
      · rintro ⟨hs, _⟩
        rw [hs]
    · rename_i hneg
      constructor
      · intro h
        exact Option.noConfusion h
      · rintro ⟨_, hpos⟩
        exact absurd hpos hneg
  · intro hle
    rw [Reflective.scatter, if_neg (not_lt.mpr hle)]

theorem c8_reflective_scatter_witness :
    Reflective.scatter 0 Vec3.O ⟨Vec3.O, ⟨0, 1, 0⟩⟩
      ⟨Vec3.O, ⟨0, 1, 0⟩, 1, true, 0⟩ = none :=
  (c8_reflective_scatter 0 Vec3.O ⟨Vec3.O, ⟨0, 1, 0⟩⟩
      ⟨Vec3.O, ⟨0, 1, 0⟩, 1, true, 0⟩).2
    (by norm_num [Ray.mk', Vec3.reflect, Vec3.dot, Vec3.normSq, Vec3.unit,
      Vec3.norm, ratSqrt_one, f_eq, FLOAT_THRESHOLD, Vec3.add_def,
      Vec3.sub_def, Vec3.smul_def, Vec3.neg_def, Vec3.O])

/-! ### Claims C9 and C10: OBJ face indices (`Loader::load_obj`)

The face branch of `load_obj` (`src/loader.rs` lines 108-134).  A negative
index `i` becomes `vertices.len() + 1 - ((-i) as usize)` and a positive one
becomes `i - 1`; indices landing outside `[0, len)` are rejected with a
`Face` error (in release builds a `usize` underflow wraps to a huge value,
which the `>= len` test likewise rejects - both out-of-range outcomes are
modelled by the signed bounds check below); an accepted triple is stored as
`vec![u_1, u_3, u_2]`. -/

def normalizeIdx (len : ℕ) (i : ℤ) : ℤ :=
  if i < 0 then (len : ℤ) + 1 - (-i) else i - 1

def load_face (len : ℕ) (i_1 i_2 i_3 : ℤ) : Except String (List ℕ) :=
  if normalizeIdx len i_1 < 0 ∨ (len : ℤ) ≤ normalizeIdx len i_1 ∨
     normalizeIdx len i_2 < 0 ∨ (len : ℤ) ≤ normalizeIdx len i_2 ∨
     normalizeIdx len i_3 < 0 ∨ (len : ℤ) ≤ normalizeIdx len i_3
  then Except.error "Face"
  else Except.ok [(normalizeIdx len i_1).toNat, (normalizeIdx len i_3).toNat,
    (normalizeIdx len i_2).toNat]

/-- C9 (code bug): a negative index `-k` is normalized to `len + 1 - k`,
not the claimed `len - k`; in particular `-1` normalizes to `len`, which the
bounds check always rejects, so `-1` can never denote the most recently read
vertex.  The rejection half of the claim does hold: every index in an
accepted face is strictly below the vertex count. -/
theorem c9_negative_index :
    normalizeIdx 3 (-1) = 3 ∧
    load_face 3 1 2 (-1) = Except.error "Face" ∧
    (∀ (len : ℕ) (i : ℤ), i < 0 → normalizeIdx len i = (len : ℤ) + 1 + i) ∧
    (∀ (len : ℕ) (i_1 i_2 i_3 : ℤ) (us : List ℕ),
      load_face len i_1 i_2 i_3 = Except.ok us → ∀ u ∈ us, u < len) := by
  refine ⟨by decide, by rfl, ?_, ?_⟩
  · intro len i hi
    rw [normalizeIdx, if_pos hi]
    ring
  · intro len i_1 i_2 i_3 us h u hu
    rw [load_face] at h
    split at h
    · exact Except.noConfusion h
    · rename_i hok
      push_neg at hok
      obtain ⟨h1a, h1b, h2a, h2b, h3a, h3b⟩ := hok
      injection h with h
      rw [← h] at hu
      simp only [List.mem_cons, List.not_mem_nil, or_false] at hu
      rcases hu with hu | hu | hu <;> rw [hu] <;> omega

theorem c9_negative_index_witness :
    normalizeIdx 5 (-2) = (5 : ℤ) + 1 + (-2) ∧ (0 : ℕ) < 3 :=
  ⟨c9_negative_index.2.2.1 5 (-2) (by norm_num),
   c9_negative_index.2.2.2 3 1 2 3 [0, 2, 1] (by rfl) 0 (by decide)⟩

/-- C10 (confirmed): every accepted face is stored with its second and third
zero-based indices swapped relative to the file order, and swapping two
vertices of a triangle negates the cross product of its edge vectors, i.e.
reverses the geometric normal. -/
theorem c10_winding_swap :
    (∀ (len : ℕ) (i_1 i_2 i_3 : ℤ) (us : List ℕ),
      load_face len i_1 i_2 i_3 = Except.ok us →
      us = [(normalizeIdx len i_1).toNat, (normalizeIdx len i_3).toNat,
        (normalizeIdx len i_2).toNat]) ∧
    (∀ a b c : Vec3,
      Vec3.cross (b - a) (c - a) = -(Vec3.cross (c - a) (b - a))) := by
  constructor
  · intro len i_1 i_2 i_3 us h
    rw [load_face] at h
    split at h
    · exact Except.noConfusion h
    · injection h with h
      exact h.symm
  · intro a b c
    simp only [Vec3.cross, Vec3.sub_def, Vec3.neg_def, Vec3.mk.injEq]
    refine ⟨by ring, by ring, by ring⟩

theorem c10_winding_swap_witness :
    ([0, 2, 1] : List ℕ) = [(normalizeIdx 3 1).toNat, (normalizeIdx 3 3).toNat,
      (normalizeIdx 3 2).toNat] :=
  c10_winding_swap.1 3 1 2 3 [0, 2, 1] (by rfl)

end Raytracer
